import Mathlib

/-
  Verification of the knackpy `App` class (src/knackpy/app.py) against its
  natural-language specification.

  The embedding below translates the relevant parts of `app.py` into Lean:

  * Python dicts holding record / cache / filesystem data become association
    lists with insertion-order-preserving assignment (`dictSet`), matching
    Python dict semantics (replacing an existing key keeps its position,
    a new key is appended).
  * `App.records`, `App._find_container`, `App._find_field_def`,
    `App._get_timezone`, `App._assemble_downloads`, `App._download_files`
    and `App.download` become `recordsCall`, `findContainer`, `findFieldDef`,
    `getTimezone`, `assembleCall` / `assembleDownloads`, `downloadFiles`
    and `downloadCall`.
  * External collaborators (the `knackpy.api` transport, `pytz`, `requests`)
    are oracle function parameters; the calls made to them are recorded in an
    explicit `Effect` trace so that theorems can count transport calls.
  * Python exceptions become `Except AppError` results; for the download
    executor, which writes files before a later request can fail, the
    filesystem component of the state is returned alongside the
    `Except` result so that writes surviving an abort are observable.
-/

namespace Knackpy

deriving instance DecidableEq for Except

/-- Association-list lookup, modelling Python `dict.get`. -/
def dictGet {κ α : Type} [DecidableEq κ] : List (κ × α) → κ → Option α
  | [], _ => none
  | (k, v) :: rest, k0 => if k = k0 then some v else dictGet rest k0

/-- Association-list assignment, modelling Python `d[k] = v`: an existing key
is replaced in place (keeping its position), a new key is appended. -/
def dictSet {κ α : Type} [DecidableEq κ] : List (κ × α) → κ → α → List (κ × α)
  | [], k0, v0 => [(k0, v0)]
  | (k, v) :: rest, k0, v0 =>
      if k = k0 then (k0, v0) :: rest else (k, v) :: dictSet rest k0 v0

/-- An attachment payload dict, as documented in `App._assemble_downloads`:
`{"id": ..., "url": ..., "size": ..., "filename": ...}` (the fields the code
reads or writes; the remaining payload attributes are carried unchanged by
the code and are irrelevant to every claim). -/
structure FileDict where
  fid : String
  url : String
  size : Nat
  filename : String
deriving DecidableEq, Repr

/-- A value stored in a raw Knack record: either a plain (string-rendered)
field value or an attachment payload dict. -/
inductive RawValue where
  | vstr : String → RawValue
  | vfile : FileDict → RawValue
deriving DecidableEq, Repr

/-- A raw record: the field-keyed dict returned by the upstream API. -/
abbrev RawRecord := List (String × RawValue)

/-- `record.raw.get(k)`. -/
def rawGet (rec : RawRecord) (k : String) : Option RawValue := dictGet rec k

/-- Python f-string interpolation of a `record.raw.get(field)` result:
`None` renders as the four characters `"None"`; a string renders as itself.
A dict value would render as its repr, which no claim exercises; it is
modelled by a fixed placeholder. -/
def pyStrOpt : Option RawValue → String
  | none => "None"
  | some (.vstr s) => s
  | some (.vfile _) => "<dict>"

/-- `record.raw.get(field_key_raw)` used as an attachment payload: yields the
payload when one is stored under the key. A missing key (and the falsy
empty-payload case) yields `none`, which `_assemble_downloads` skips. -/
def getFile (rec : RawRecord) (k : String) : Option FileDict :=
  match rawGet rec k with
  | some (.vfile f) => some f
  | _ => none

/-- In-place mutation `file_dict["filename"] = ...` of the payload stored in
the record under key `k`. -/
def setFile (rec : RawRecord) (k : String) (f : FileDict) : RawRecord :=
  dictSet rec k (.vfile f)

/-- Python `str.lower()` (over the ASCII data these strings carry). -/
def pyLower (s : String) : String := ⟨s.data.map Char.toLower⟩

/-- Whether a string starts with the path separator. -/
def startsWithSlash (s : String) : Bool :=
  match s.data with
  | [] => false
  | c :: _ => c == '/'

/-- Whether a string ends with the path separator. -/
def endsWithSlash (s : String) : Bool :=
  match s.data.getLast? with
  | none => false
  | some c => c == '/'

/-- `os.path.join(a, b)` for POSIX paths and two arguments: an absolute `b`
replaces `a`; otherwise the parts are joined, inserting a separator unless
`a` is empty or already ends with one. -/
def osPathJoin (a b : String) : String :=
  if startsWithSlash b then b
  else if a = "" then b
  else if endsWithSlash a then a ++ b
  else a ++ "/" ++ b

/-- The label-prepending loop of `App._assemble_downloads`:
`if label_keys: for field in reversed(label_keys): filename =
f"{record.raw.get(field)}_{filename}"`. -/
def labelFilename (labelKeys : List String) (rec : RawRecord) (base : String) : String :=
  if labelKeys.isEmpty then base
  else labelKeys.reverse.foldl (fun fn k => pyStrOpt (rawGet rec k) ++ "_" ++ fn) base

/-- The filename rewrite `_assemble_downloads` applies to one payload:
prepend the label values, then join with `out_dir`. -/
def rewriteFile (rec : RawRecord) (labelKeys : List String) (outDir : String)
    (f : FileDict) : FileDict :=
  { f with filename := osPathJoin outDir (labelFilename labelKeys rec f.filename) }

/-- One iteration of the `for record in self.records(identifier)` loop of
`App._assemble_downloads`: skip the record when the payload is absent,
otherwise rewrite the payload filename in place and emit the (mutated)
payload as a download descriptor. Returns the descriptor (if any) together
with the record as left behind by the mutation. -/
def processRecord (fkr : String) (labelKeys : List String) (outDir : String)
    (rec : RawRecord) : Option FileDict × RawRecord :=
  match getFile rec fkr with
  | none => (none, rec)
  | some f =>
      (some (rewriteFile rec labelKeys outDir f),
       setFile rec fkr (rewriteFile rec labelKeys outDir f))

/-- The pure core of `App._assemble_downloads` over a raw record batch:
descriptor list plus the batch as left behind by the in-place mutations. -/
def assembleDownloads (batch : List RawRecord) (fieldKey : String)
    (labelKeys : List String) (outDir : String) :
    List FileDict × List RawRecord :=
  ((batch.map (processRecord (fieldKey ++ "_raw") labelKeys outDir)).filterMap (·.1),
   (batch.map (processRecord (fieldKey ++ "_raw") labelKeys outDir)).map (·.2))

/-- A queryable container (object or view), as produced by
`utils.generate_containers`. -/
structure Container where
  obj : Option String
  view : Option String
  scene : Option String
  name : String
deriving DecidableEq, Repr

/-- A field definition, as produced by `fields.field_defs_from_metadata`:
the attributes `App._find_field_def` reads. -/
structure FieldDef where
  key : String
  name : String
  obj : String
deriving DecidableEq, Repr

/-- The error taxonomy of the spec (section 7), covering the exceptions
raised in `app.py`: `ValueError`/`IndexError`/`TypeError` in
`_get_timezone`, `_find_container`, `records` and `download`, and the
`requests` status error in `_download_files`. -/
inductive AppError where
  | unknownTimezone : String → AppError
  | ambiguousIdentifier : Option String → AppError
  | unknownContainer : Option String → AppError
  | missingIdentifier : AppError
  | unknownField : String → AppError
  | downloadFailed : String → Nat → AppError
deriving DecidableEq, Repr

/-- Modelled from the spec: one entry of the `TIMEZONES` table
(`knackpy.models`, not under src/) — "a fixed table mapping vendor common
names (e.g., `Eastern Time (US & Canada)`) to IANA names". -/
structure TZEntry where
  common_name : String
  iana_name : String
deriving DecidableEq, Repr

/-- `App._get_timezone`, parameterized by the external `pytz` collaborator
(`v s = true` iff `pytz.timezone s` succeeds; a successful resolution is
modelled by the accepted IANA name) and by the `TIMEZONES` table. First try
the input directly; otherwise take the first case-insensitive common-name
match of the table and resolve its IANA name; otherwise (or when that
resolution also fails) raise the unknown-timezone error. -/
def getTimezone (v : String → Bool) (table : List TZEntry) (tzinfo : String) :
    Except AppError String :=
  if v tzinfo then .ok tzinfo
  else
    match table.filter (fun tz => pyLower tz.common_name == pyLower tzinfo) with
    | [] => .error (.unknownTimezone tzinfo)
    | e :: _ => if v e.iana_name then .ok e.iana_name
                else .error (.unknownTimezone tzinfo)

/-- Python truthiness of an optional string: `None` and `""` are falsy. -/
def strFalsy : Option String → Bool
  | none => true
  | some s => s.isEmpty

/-- Python `a or b` on optional strings (`container.obj or container.view`). -/
def pyOr (a b : Option String) : Option String := if strFalsy a then b else a

/-- `identifier in [container.obj, container.view, container.name]`. -/
def containerMatches (c : Container) (identifier : Option String) : Bool :=
  identifier == c.obj || identifier == c.view || identifier == some c.name

/-- The match list built by `App._find_container`. -/
def matchesOf (cs : List Container) (identifier : Option String) : List Container :=
  cs.filter (fun c => containerMatches c identifier)

/-- `App._find_container`: more than one match raises the ambiguous-name
error, `matches[0]` raises the unknown-container error when empty. -/
def findContainer (cs : List Container) (identifier : Option String) :
    Except AppError Container :=
  if 1 < (matchesOf cs identifier).length then
    .error (.ambiguousIdentifier identifier)
  else
    match matchesOf cs identifier with
    | [] => .error (.unknownContainer identifier)
    | c :: _ => .ok c

/-- `App._find_field_def`:
`identifier.lower() in [field_def.name.lower(), field_def.key] and
field_def.obj == obj`. -/
def findFieldDef (fds : List FieldDef) (identifier : String) (obj : String) :
    List FieldDef :=
  fds.filter (fun fd =>
    (pyLower identifier == pyLower fd.name || pyLower identifier == fd.key)
      && fd.obj == obj)

/-- The mutable `App` state the claims exercise: the container registry, the
field definitions and the record cache `self.data` (a dict keyed by
`container.obj or container.view`, hence by an optional string). -/
structure AppState where
  containers : List Container
  fieldDefs : List FieldDef
  data : List (Option String × List RawRecord)
deriving DecidableEq, Repr

/-- The arguments `App.records` passes to the `knackpy.api.get` transport
collaborator. -/
structure FetchArgs where
  obj : Option String
  scene : Option String
  view : Option String
  filters : Option String
  recordLimit : Option Nat
deriving DecidableEq, Repr

/-- The externally observable calls of the embedded operations: one record
fetch through the transport collaborator, one HTTP GET of a file URL, or the
built-in `breakpoint()` debugger stop. -/
inductive Effect where
  | transport : FetchArgs → Effect
  | transportGet : String → Effect
  | breakpoint : Effect
deriving DecidableEq, Repr

/-- `App._build_request_kwargs` drops falsy params, so `record_limit = 0`
(or `None`) is not forwarded. -/
def dropZero : Option Nat → Option Nat
  | some 0 => none
  | x => x

/-- The `knackpy.api.get` argument record built inside `App.records`. -/
def mkFetchArgs (c : Container) (filters : Option String)
    (recordLimit : Option Nat) : FetchArgs :=
  { obj := c.obj, scene := c.scene, view := c.view,
    filters := filters, recordLimit := recordLimit }

/-- The refetch condition `not self.data.get(container_key)`: true when the
key is absent or the cached batch is empty (an empty list is falsy). -/
def cacheMiss (data : List (Option String × List RawRecord))
    (key : Option String) : Bool :=
  match dictGet data key with
  | none => true
  | some batch => batch.isEmpty

/-- Modelled from the spec: the Field Formatter / Record Materializer
(`knackpy.records`, not under src/) "consumes (raw record batch, field
definitions, timezone handle) and produces user-facing typed records"; it is
a pure function of the cached batch, and the spec's assembler operates on
"every raw record currently cached", i.e. each materialized record's raw
payload is the cached raw record itself. The records() result is therefore
modelled as the raw batch. -/
def generateRecords (batch : List RawRecord) : List RawRecord := batch

/-- The identifier-defaulting prologue of `App.records`: a falsy identifier
is replaced by the single cached key, or the missing-identifier `TypeError`
is raised. -/
def resolveIdentifier (st : AppState) (identifier : Option String) :
    Except AppError (Option String) :=
  if strFalsy identifier then
    match st.data with
    | [(k, _)] => .ok k
    | _ => .error .missingIdentifier
  else .ok identifier

/-- The cache-or-fetch tail of `App.records`, after the container has been
resolved: on `not self.data.get(container_key) or refresh` fetch through the
transport and store the batch, otherwise return the cached entry unchanged.
The result carries the container key (the cached batch is aliased under it),
the batch, the new state and the transport calls made. -/
def recordsFetchStep (fetch : FetchArgs → List RawRecord) (st : AppState)
    (c : Container) (refresh : Bool) (recordLimit : Option Nat)
    (filters : Option String) :
    Except AppError (Option String × List RawRecord × AppState × List Effect) :=
  if cacheMiss st.data (pyOr c.obj c.view) || refresh then
    .ok (pyOr c.obj c.view,
         generateRecords (fetch (mkFetchArgs c filters (dropZero recordLimit))),
         { st with data :=
                      dictSet st.data (pyOr c.obj c.view)
                        (fetch (mkFetchArgs c filters (dropZero recordLimit))) },
         [.transport (mkFetchArgs c filters (dropZero recordLimit))])
  else
    .ok (pyOr c.obj c.view,
         generateRecords ((dictGet st.data (pyOr c.obj c.view)).getD []), st, [])

/-- `App.records`. -/
def recordsCall (fetch : FetchArgs → List RawRecord) (st : AppState)
    (identifier : Option String) (refresh : Bool) (recordLimit : Option Nat)
    (filters : Option String) :
    Except AppError (Option String × List RawRecord × AppState × List Effect) :=
  match resolveIdentifier st identifier with
  | .error e => .error e
  | .ok ident =>
      match findContainer st.containers ident with
      | .error e => .error e
      | .ok c => recordsFetchStep fetch st c refresh recordLimit filters

/-- `App._assemble_downloads` in context: fetch the records (refresh false,
no limit, no filters — the values `_assemble_downloads` passes), run the
descriptor loop over the batch, write the mutated batch back to the cache
entry it aliases, and execute `breakpoint()` before returning. -/
def assembleCall (fetch : FetchArgs → List RawRecord) (st : AppState)
    (identifier : Option String) (fieldKey : String) (labelKeys : List String)
    (outDir : String) :
    Except AppError (List FileDict × AppState × List Effect) :=
  match recordsCall fetch st identifier false none none with
  | .error e => .error e
  | .ok (key, batch, st1, effs) =>
      .ok ((assembleDownloads batch fieldKey labelKeys outDir).1,
           { st1 with data :=
                         dictSet st1.data key
                           (assembleDownloads batch fieldKey labelKeys outDir).2 },
           effs ++ [.breakpoint])

/-- The local filesystem: a dict from paths to written byte contents. -/
abbrev FS := List (String × String)

/-- `open(filename, "wb").write(content)`. -/
def fsWrite (fs : FS) (path content : String) : FS := dictSet fs path content

/-- `App._download_files`, with `web url = (status, body)` modelling
`requests.get`: in order, GET each descriptor URL; `raise_for_status` aborts
on a status of 400 or above before anything is written for that descriptor;
otherwise write the body to the descriptor filename and count it. The
filesystem survives an abort, so it is returned outside the `Except`. -/
def downloadFiles (web : String → Nat × String) :
    List FileDict → FS → FS × List Effect × Except AppError Nat
  | [], fs => (fs, [], .ok 0)
  | f :: rest, fs =>
      if 400 ≤ (web f.url).1 then
        (fs, [.transportGet f.url], .error (.downloadFailed f.url (web f.url).1))
      else
        ((downloadFiles web rest (fsWrite fs f.filename (web f.url).2)).1,
         .transportGet f.url
           :: (downloadFiles web rest (fsWrite fs f.filename (web f.url).2)).2.1,
         (downloadFiles web rest (fsWrite fs f.filename (web f.url).2)).2.2.map
           (· + 1))

/-- The filesystem left behind by a run of successful writes. -/
def writeAll (web : String → Nat × String) (l : List FileDict) (fs : FS) : FS :=
  l.foldl (fun acc f => fsWrite acc f.filename (web f.url).2) fs

/-- `App.download`: resolve the container from the user identifier, look up
the field definitions with `_find_field_def(field, identifier)` — note:
against the raw `identifier` string, not `container.obj` — raise the
field-not-found `ValueError` when none match, then assemble (passing
`container.obj` as the records identifier) and execute the downloads. -/
def downloadCall (fetch : FetchArgs → List RawRecord)
    (web : String → Nat × String) (st : AppState) (fs : FS)
    (identifier field outDir : String) (labelKeys : List String) :
    FS × List Effect × Except AppError (Nat × AppState) :=
  match findContainer st.containers (some identifier) with
  | .error e => (fs, [], .error e)
  | .ok c =>
      match findFieldDef st.fieldDefs field identifier with
      | [] => (fs, [], .error (.unknownField field))
      | fd :: _ =>
          match assembleCall fetch st c.obj fd.key labelKeys outDir with
          | .error e => (fs, [], .error e)
          | .ok (downloads, st2, effs) =>
              ((downloadFiles web downloads fs).1,
               effs ++ (downloadFiles web downloads fs).2.1,
               (downloadFiles web downloads fs).2.2.map (fun n => (n, st2)))

/-! ### Concrete specimens used by witnesses and counterexamples -/

/-- An object-backed container. -/
def cntOrders : Container :=
  { obj := some "object_1", view := none, scene := none, name := "orders" }

/-- A view-backed container named "dup". -/
def cntViewA : Container :=
  { obj := none, view := some "view_2", scene := some "scene_1", name := "dup" }

/-- A second view-backed container also named "dup". -/
def cntViewB : Container :=
  { obj := none, view := some "view_3", scene := some "scene_1", name := "dup" }

/-- A small container registry with a unique name and a duplicated name. -/
def registryW : List Container := [cntOrders, cntViewA, cntViewB]

/-- A concrete stand-in for `pytz`: accepts exactly two IANA names. -/
def vPytz : String → Bool := fun s => s == "US/Central" || s == "US/Eastern"

/-- A concrete two-entry common-name table. -/
def tzTable : List TZEntry :=
  [{ common_name := "Central Time (US & Canada)", iana_name := "US/Central" },
   { common_name := "Eastern Time (US & Canada)", iana_name := "US/Eastern" }]

/-- A concrete attachment payload with upstream filename "doc.pdf". -/
def fileDoc : FileDict :=
  { fid := "5d7967132be2bb0010892ce7", url := "https://api.knack.com/doc",
    size := 305741, filename := "doc.pdf" }

/-- A record holding the payload under "field_7_raw" and two label values. -/
def recAB : RawRecord :=
  [("field_1", .vstr "A"), ("field_2", .vstr "B"), ("field_7_raw", .vfile fileDoc)]

/-- A second concrete payload. -/
def fileDoc2 : FileDict :=
  { fid := "f2", url := "https://api.knack.com/d2", size := 7,
    filename := "doc.pdf" }

/-- A record holding only the attachment payload — no label fields. -/
def recNoLabel : RawRecord := [("field_7_raw", .vfile fileDoc2)]

/-- A single concrete raw record for the cache claims. -/
def recC1 : RawRecord := [("field_1", .vstr "x")]

/-- A transport oracle returning one record for every request. -/
def fetchC1 : FetchArgs → List RawRecord := fun _ => [recC1]

/-- An app state whose cache entry for "object_1" exists but holds the empty
batch. -/
def stEmptyCache : AppState :=
  { containers := [cntOrders], fieldDefs := [], data := [(some "object_1", [])] }

/-- An app state whose cache entry for "object_1" holds one record. -/
def stWarmCache : AppState :=
  { containers := [cntOrders], fieldDefs := [],
    data := [(some "object_1", [recC1])] }

/-- Concrete download descriptors for the executor claims. -/
def dlA : FileDict :=
  { fid := "a", url := "u1", size := 1, filename := "_downloads/a.pdf" }

/-- Second descriptor; its URL fails under `webFail2`. -/
def dlB : FileDict :=
  { fid := "b", url := "u2", size := 2, filename := "_downloads/b.pdf" }

/-- Third descriptor. -/
def dlC : FileDict :=
  { fid := "c", url := "u3", size := 3, filename := "_downloads/c.pdf" }

/-- Fourth descriptor. -/
def dlD : FileDict :=
  { fid := "d", url := "u4", size := 4, filename := "_downloads/d.pdf" }

/-- Fifth descriptor. -/
def dlE : FileDict :=
  { fid := "e", url := "u5", size := 5, filename := "_downloads/e.pdf" }

/-- A web oracle: status 500 for "u2", status 200 with a body elsewhere. -/
def webFail2 : String → Nat × String :=
  fun u => if u == "u2" then (500, "") else (200, "body-" ++ u)

/-- A field definition living on object "object_1" with key "field_7". -/
def fdFile : FieldDef :=
  { key := "field_7", name := "File Field", obj := "object_1" }

/-- An app state for the download claims: the "orders" object container, one
file field definition on it, and a cached one-record batch holding an
attachment payload under "field_7_raw". -/
def stDownload : AppState :=
  { containers := [cntOrders], fieldDefs := [fdFile],
    data := [(some "object_1", [recNoLabel])] }

/-- An object container used by the cache-mutation claim. -/
def cntFiles : Container :=
  { obj := some "object_2", view := none, scene := none, name := "files" }

/-- A record with an attachment payload and one label value. -/
def recMut : RawRecord :=
  [("field_7_raw", .vfile fileDoc2), ("field_2", .vstr "A")]

/-- An app state caching `recMut` under "object_2". -/
def stMut : AppState :=
  { containers := [cntFiles], fieldDefs := [],
    data := [(some "object_2", [recMut])] }

/-- `recMut` after one assembly pass: the payload filename was rewritten in
place to the label-prefixed, outDir-joined path. -/
def recMut1 : RawRecord :=
  [("field_7_raw", .vfile { fileDoc2 with filename := "_downloads/A_doc.pdf" }),
   ("field_2", .vstr "A")]

/-- The app state left behind by one assembly pass over `stMut`. -/
def stMut2 : AppState :=
  { containers := [cntFiles], fieldDefs := [],
    data := [(some "object_2", [recMut1])] }

/-- A view-backed container (no object key) named "my view". -/
def cntView : Container :=
  { obj := none, view := some "view_1", scene := some "scene_1",
    name := "my view" }

/-- A different, object-backed container. -/
def cntOther : Container :=
  { obj := some "object_9", view := none, scene := none, name := "other" }

/-- A field definition whose obj happens to equal the view name, so the
field lookup of `download` succeeds for identifier "my view". -/
def fdView : FieldDef :=
  { key := "field_3", name := "Attachment", obj := "my view" }

/-- A record cached for the *other* container. -/
def recOther : RawRecord := [("field_3_raw", .vfile fileDoc2)]

/-- An app state where the user downloads from the view "my view" while the
only cached batch belongs to "object_9". -/
def stView : AppState :=
  { containers := [cntView, cntOther], fieldDefs := [fdView],
    data := [(some "object_9", [recOther])] }

/-! ### Association-list lemmas -/

theorem dictGet_dictSet_self {κ α : Type} [DecidableEq κ]
    (d : List (κ × α)) (k : κ) (v : α) :
    dictGet (dictSet d k v) k = some v := by
  induction d with
  | nil => simp [dictSet, dictGet]
  | cons p rest ih =>
      obtain ⟨pk, pv⟩ := p
      by_cases h : pk = k
      · simp [dictSet, dictGet, h]
      · simp [dictSet, dictGet, h, ih]

theorem dictGet_dictSet_ne {κ α : Type} [DecidableEq κ]
    (d : List (κ × α)) (k0 k : κ) (v : α) (h : k0 ≠ k) :
    dictGet (dictSet d k0 v) k = dictGet d k := by
  induction d with
  | nil => simp [dictSet, dictGet, h]
  | cons p rest ih =>
      obtain ⟨pk, pv⟩ := p
      by_cases hk : pk = k0
      · subst hk
        simp [dictSet, dictGet, h]
      · simp only [dictSet, if_neg hk]
        by_cases hk2 : pk = k
        · simp [dictGet, hk2]
        · simp [dictGet, hk2, ih]

theorem dictGet_dictSet_isSome {κ α : Type} [DecidableEq κ]
    (d : List (κ × α)) (k0 k : κ) (v : α) (h : dictGet d k ≠ none) :
    dictGet (dictSet d k0 v) k ≠ none := by
  by_cases hk : k0 = k
  · subst hk
    simp [dictGet_dictSet_self]
  · rw [dictGet_dictSet_ne d k0 k v hk]
    exact h

/-! ### Label-filename lemmas -/

theorem labelFilename_foldr (L : List String) (rec : RawRecord) (base : String) :
    labelFilename L rec base
      = L.foldr (fun k acc => pyStrOpt (rawGet rec k) ++ "_" ++ acc) base := by
  have core : ∀ (M : List String) (b : String),
      M.reverse.foldl (fun fn k => pyStrOpt (rawGet rec k) ++ "_" ++ fn) b
        = M.foldr (fun k acc => pyStrOpt (rawGet rec k) ++ "_" ++ acc) b := by
    intro M
    induction M with
    | nil => intro b; rfl
    | cons a t ih =>
        intro b
        simp [List.foldl_append, ih]
  cases L with
  | nil => rfl
  | cons a t =>
      simp only [labelFilename, List.isEmpty_cons, Bool.false_eq_true, if_false]
      exact core (a :: t) base

theorem labelFilename_dictSet_notin (rec : RawRecord) (fkr : String) (v : RawValue)
    (L : List String) (h : fkr ∉ L) (base : String) :
    labelFilename L (dictSet rec fkr v) base = labelFilename L rec base := by
  rw [labelFilename_foldr, labelFilename_foldr]
  induction L with
  | nil => rfl
  | cons a t ih =>
      have ha : a ≠ fkr := fun hEq => h (hEq ▸ List.mem_cons_self a t)
      have ht : fkr ∉ t := fun hMem => h (List.mem_cons_of_mem a hMem)
      simp only [List.foldr_cons, ih ht]
      have : rawGet (dictSet rec fkr v) a = rawGet rec a := by
        unfold rawGet
        exact dictGet_dictSet_ne rec fkr a v (fun hEq => ha hEq.symm)
      rw [this]

/-! ### Records-cache helper lemmas -/

theorem recordsCall_hit (fetch : FetchArgs → List RawRecord) (st : AppState)
    (identifier : Option String) (c : Container) (batch : List RawRecord)
    (rl : Option Nat) (fl : Option String)
    (hid : strFalsy identifier = false)
    (hc : findContainer st.containers identifier = .ok c)
    (hcache : dictGet st.data (pyOr c.obj c.view) = some batch)
    (hne : batch ≠ []) :
    recordsCall fetch st identifier false rl fl
      = .ok (pyOr c.obj c.view, batch, st, []) := by
  have hmiss : cacheMiss st.data (pyOr c.obj c.view) = false := by
    unfold cacheMiss
    rw [hcache]
    simpa [List.isEmpty_iff] using hne
  simp [recordsCall, resolveIdentifier, hid, hc, recordsFetchStep, hmiss, hcache,
        generateRecords]

theorem recordsCall_miss (fetch : FetchArgs → List RawRecord) (st : AppState)
    (identifier : Option String) (c : Container)
    (rl : Option Nat) (fl : Option String)
    (hid : strFalsy identifier = false)
    (hc : findContainer st.containers identifier = .ok c)
    (hmiss : cacheMiss st.data (pyOr c.obj c.view) = true) :
    recordsCall fetch st identifier false rl fl
      = .ok (pyOr c.obj c.view,
             fetch (mkFetchArgs c fl (dropZero rl)),
             { st with data :=
                          dictSet st.data (pyOr c.obj c.view)
                            (fetch (mkFetchArgs c fl (dropZero rl))) },
             [.transport (mkFetchArgs c fl (dropZero rl))]) := by
  simp [recordsCall, resolveIdentifier, hid, hc, recordsFetchStep, hmiss,
        generateRecords]

/-! ### Error-shape lemmas -/

theorem findContainer_error_shape (cs : List Container) (i : Option String)
    (e : AppError) (h : findContainer cs i = .error e) :
    e = .ambiguousIdentifier i ∨ e = .unknownContainer i := by
  unfold findContainer at h
  split at h
  · exact Or.inl (Except.error.inj h).symm
  · split at h
    · exact Or.inr (Except.error.inj h).symm
    · exact absurd h (by simp)

theorem findContainer_ok_mem (cs : List Container) (i : Option String)
    (c : Container) (h : findContainer cs i = .ok c) :
    matchesOf cs i = [c] := by
  unfold findContainer at h
  split at h
  · exact absurd h (by simp)
  · rename_i hlen
    split at h
    · exact absurd h (by simp)
    · rename_i c0 rest heq
      cases Except.ok.inj h
      rw [heq] at hlen
      cases rest with
      | nil => exact heq
      | cons x xs =>
          exfalso
          apply hlen
          simp

theorem recordsCall_error_shape (fetch : FetchArgs → List RawRecord)
    (st : AppState) (identifier : Option String) (refresh : Bool)
    (rl : Option Nat) (fl : Option String) (e : AppError)
    (h : recordsCall fetch st identifier refresh rl fl = .error e) :
    e = .missingIdentifier
      ∨ (∃ i, e = .ambiguousIdentifier i) ∨ (∃ i, e = .unknownContainer i) := by
  unfold recordsCall at h
  cases hres : resolveIdentifier st identifier with
  | error e0 =>
      simp only [hres] at h
      cases Except.error.inj h
      unfold resolveIdentifier at hres
      split at hres
      · split at hres
        · exact absurd hres (by simp)
        · cases Except.error.inj hres
          exact Or.inl rfl
      · exact absurd hres (by simp)
  | ok ident =>
      simp only [hres] at h
      cases hfc : findContainer st.containers ident with
      | error e0 =>
          simp only [hfc] at h
          cases Except.error.inj h
          rcases findContainer_error_shape st.containers ident e hfc with h1 | h1
          · exact Or.inr (Or.inl ⟨ident, h1⟩)
          · exact Or.inr (Or.inr ⟨ident, h1⟩)
      | ok c =>
          simp only [hfc] at h
          unfold recordsFetchStep at h
          split at h <;> exact absurd h (by simp)

theorem assembleCall_error_shape (fetch : FetchArgs → List RawRecord)
    (st : AppState) (identifier : Option String) (fieldKey : String)
    (labelKeys : List String) (outDir : String) (e : AppError)
    (h : assembleCall fetch st identifier fieldKey labelKeys outDir = .error e) :
    e = .missingIdentifier
      ∨ (∃ i, e = .ambiguousIdentifier i) ∨ (∃ i, e = .unknownContainer i) := by
  unfold assembleCall at h
  cases hrc : recordsCall fetch st identifier false none none with
  | error e0 =>
      simp only [hrc] at h
      cases Except.error.inj h
      exact recordsCall_error_shape fetch st identifier false none none e hrc
  | ok v =>
      obtain ⟨key, batch, st1, effs⟩ := v
      simp only [hrc] at h
      exact absurd h (by simp)

theorem downloadFiles_error_shape (web : String → Nat × String) :
    ∀ (l : List FileDict) (fs : FS) (e : AppError),
      (downloadFiles web l fs).2.2 = .error e →
      ∃ u s, e = .downloadFailed u s := by
  intro l
  induction l with
  | nil => intro fs e h; exact absurd h (by simp [downloadFiles])
  | cons f rest ih =>
      intro fs e h
      unfold downloadFiles at h
      split at h
      · exact ⟨f.url, (web f.url).1, (Except.error.inj h).symm⟩
      · dsimp only at h
        rcases hmap : (downloadFiles web rest (fsWrite fs f.filename (web f.url).2)).2.2
          with e0 | n
        · rw [hmap] at h
          simp only [Except.map] at h
          cases Except.error.inj h
          exact ih _ e hmap
        · rw [hmap] at h
          exact absurd h (by simp [Except.map])

/-! ### Claim C4 — identifier resolution uniqueness -/

/-- Claim C4: resolution over the container registry returns exactly the one
container whose obj, view, or name equals the identifier when exactly one
matches; it fails with the ambiguous-identifier error when two or more
containers match; it fails with the unknown-container error when none match;
and a success always means exactly one container matched. -/
theorem find_container_uniqueness (cs : List Container) (i : Option String) :
    (∀ c, matchesOf cs i = [c] → findContainer cs i = .ok c)
    ∧ (2 ≤ (matchesOf cs i).length →
        findContainer cs i = .error (.ambiguousIdentifier i))
    ∧ ((matchesOf cs i).length = 0 →
        findContainer cs i = .error (.unknownContainer i))
    ∧ (∀ c, findContainer cs i = .ok c → matchesOf cs i = [c]) := by
  refine ⟨?_, ?_, ?_, ?_⟩
  · intro c hm
    unfold findContainer
    rw [hm]
    simp
  · intro hl
    unfold findContainer
    rw [if_pos (by omega)]
  · intro hl
    have hnil : matchesOf cs i = [] := List.length_eq_zero.mp hl
    unfold findContainer
    rw [hnil]
    simp
  · exact fun c h => findContainer_ok_mem cs i c h

/-- Witness for C4: in a concrete registry, a unique object key resolves to
its container, the duplicated name "dup" is ambiguous, and an unknown string
fails with the unknown-container error. -/
theorem find_container_uniqueness_witness :
    findContainer registryW (some "object_1") = .ok cntOrders
    ∧ findContainer registryW (some "dup")
        = .error (.ambiguousIdentifier (some "dup"))
    ∧ findContainer registryW (some "nope")
        = .error (.unknownContainer (some "nope")) := by
  refine ⟨?_, ?_, ?_⟩
  · exact (find_container_uniqueness registryW (some "object_1")).1 cntOrders
      (by decide)
  · exact (find_container_uniqueness registryW (some "dup")).2.1 (by decide)
  · exact (find_container_uniqueness registryW (some "nope")).2.2.1 (by decide)

/-! ### Claim C3 — two-tier timezone resolution -/

/-- Claim C3: timezone resolution first tries the input as a direct IANA
name and returns it on success; otherwise it performs a case-insensitive
lookup in the common-name table and resolves the IANA name of the first
matching entry; when neither tier succeeds it fails with the
unknown-timezone error naming the input. -/
theorem timezone_two_tier (v : String → Bool) (table : List TZEntry)
    (s : String) :
    (v s = true → getTimezone v table s = .ok s)
    ∧ (v s = false → ∀ e rest,
        table.filter (fun tz => pyLower tz.common_name == pyLower s) = e :: rest →
        getTimezone v table s
          = if v e.iana_name then .ok e.iana_name
            else .error (.unknownTimezone s))
    ∧ (v s = false →
        table.filter (fun tz => pyLower tz.common_name == pyLower s) = [] →
        getTimezone v table s = .error (.unknownTimezone s)) := by
  refine ⟨?_, ?_, ?_⟩
  · intro hv
    simp [getTimezone, hv]
  · intro hv e rest hm
    simp [getTimezone, hv, hm]
  · intro hv hm
    simp [getTimezone, hv, hm]

/-- Witness for C3: a direct IANA name resolves in tier 1; a common name
resolves case-insensitively in tier 2 to the first table match; an unknown
string fails with the unknown-timezone error. -/
theorem timezone_two_tier_witness :
    getTimezone vPytz tzTable "US/Central" = .ok "US/Central"
    ∧ getTimezone vPytz tzTable "eastern time (us & canada)" = .ok "US/Eastern"
    ∧ getTimezone vPytz tzTable "Not A Zone"
        = .error (.unknownTimezone "Not A Zone") := by
  refine ⟨?_, ?_, ?_⟩
  · exact (timezone_two_tier vPytz tzTable "US/Central").1 (by decide)
  · have h := (timezone_two_tier vPytz tzTable "eastern time (us & canada)").2.1
      (by decide) ⟨"Eastern Time (US & Canada)", "US/Eastern"⟩ [] (by decide)
    exact h.trans (by decide)
  · exact (timezone_two_tier vPytz tzTable "Not A Zone").2.2 (by decide)
      (by decide)

/-! ### Label-segment splitting lemma -/

theorem labelFilename_append_missing (rec : RawRecord) (field : String)
    (pre post : List String) (base : String) (hmiss : rawGet rec field = none) :
    labelFilename (pre ++ field :: post) rec base
      = labelFilename pre rec ("None_" ++ labelFilename post rec base) := by
  rw [labelFilename_foldr, labelFilename_foldr, labelFilename_foldr,
      List.foldr_append]
  simp only [List.foldr_cons]
  congr 1
  rw [hmiss]
  congr 1

/-! ### Claim C2 — label-prefixed filename composition -/

/-- Claim C2: for every record with an attachment payload, the assembler
prepends one `value_` segment per label key, iterating `labelKeys` in
reverse, so the final filename carries the label values in the original
left-to-right `labelKeys` order, joined with `outDir`; in particular
label keys `field_1`/`field_2` with values `A`/`B` and upstream name
`doc.pdf` yield `_downloads/A_B_doc.pdf`. -/
theorem assemble_label_order (rec : RawRecord) (f : FileDict)
    (fieldKey : String) (labelKeys : List String) (outDir : String)
    (h : getFile rec (fieldKey ++ "_raw") = some f) (_hne : labelKeys ≠ []) :
    (assembleDownloads [rec] fieldKey labelKeys outDir).1
      = [{ f with filename :=
                    osPathJoin outDir
                      (labelKeys.foldr
                        (fun k acc => pyStrOpt (rawGet rec k) ++ "_" ++ acc)
                        f.filename) }]
    ∧ (assembleDownloads [recAB] "field_7" ["field_1", "field_2"] "_downloads").1
      = [{ fileDoc with filename := "_downloads/A_B_doc.pdf" }] := by
  constructor
  · simp [assembleDownloads, processRecord, h, rewriteFile, labelFilename_foldr]
  · decide

/-- Witness for C2: the concrete record with values `A` and `B` yields the
descriptor filename `_downloads/A_B_doc.pdf`. -/
theorem assemble_label_order_witness :
    (assembleDownloads [recAB] "field_7" ["field_1", "field_2"] "_downloads").1
      = [{ fileDoc with filename := "_downloads/A_B_doc.pdf" }] :=
  (assemble_label_order recAB fileDoc "field_7" ["field_1", "field_2"]
    "_downloads" (by decide) (by decide)).2

/-! ### Claim C5 — missing label keys -/

/-- Counterexample for C5: with label key `field_9` absent from the record,
the assembled filename is `_downloads/None_doc.pdf` — the f-string rendering
of Python `None` — not the empty-segment name `_downloads/_doc.pdf` the
claim predicts. -/
theorem missing_label_empty_segment_cex :
    (assembleDownloads [recNoLabel] "field_7" ["field_9"] "_downloads").1
      = [{ fileDoc2 with filename := "_downloads/None_doc.pdf" }]
    ∧ (assembleDownloads [recNoLabel] "field_7" ["field_9"] "_downloads").1
      ≠ [{ fileDoc2 with filename := "_downloads/_doc.pdf" }] := by
  decide

/-- Claim C5 (amended): a label key absent from the record raw data degrades
to the literal segment `None` — the f-string rendering of Python `None` —
rather than failing the assembly; the assembler still returns exactly one
descriptor for the record, with all non-filename payload attributes
unchanged. -/
theorem missing_label_none_segment (rec : RawRecord) (f : FileDict)
    (fieldKey outDir field : String) (pre post : List String)
    (hf : getFile rec (fieldKey ++ "_raw") = some f)
    (hmiss : rawGet rec field = none) :
    ∃ f2,
      (assembleDownloads [rec] fieldKey (pre ++ field :: post) outDir).1 = [f2]
      ∧ f2.filename
          = osPathJoin outDir
              (labelFilename pre rec
                ("None_" ++ labelFilename post rec f.filename))
      ∧ f2.fid = f.fid ∧ f2.url = f.url ∧ f2.size = f.size := by
  refine ⟨rewriteFile rec (pre ++ field :: post) outDir f, ?_, ?_, rfl, rfl, rfl⟩
  · simp [assembleDownloads, processRecord, hf]
  · show osPathJoin outDir (labelFilename (pre ++ field :: post) rec f.filename)
      = _
    rw [labelFilename_append_missing rec field pre post f.filename hmiss]

/-- Witness for C5 (amended): the record lacking `field_9` still produces a
descriptor, named with the `None` segment. -/
theorem missing_label_none_segment_witness :
    ∃ f2,
      (assembleDownloads [recNoLabel] "field_7" ["field_9"] "_downloads").1 = [f2]
      ∧ f2.filename
          = osPathJoin "_downloads"
              (labelFilename [] recNoLabel
                ("None_" ++ labelFilename [] recNoLabel fileDoc2.filename))
      ∧ f2.fid = fileDoc2.fid ∧ f2.url = fileDoc2.url
      ∧ f2.size = fileDoc2.size :=
  missing_label_none_segment recNoLabel fileDoc2 "field_7" "_downloads"
    "field_9" [] [] (by decide) (by decide)

/-! ### Claim C1 — record-cache idempotence -/

/-- Counterexample for C1: the cache entry for "object_1" exists (holding
the empty batch) and refresh is false, yet the call makes a transport call
and returns the freshly fetched batch rather than the cached one — the
refetch condition tests Python truthiness of the entry, and an empty cached
batch is falsy. -/
theorem records_cache_idempotent_cex :
    dictGet stEmptyCache.data (some "object_1") = some []
    ∧ recordsCall fetchC1 stEmptyCache (some "object_1") false none none
        = .ok (some "object_1", [recC1], stWarmCache,
               [.transport (mkFetchArgs cntOrders none none)])
    ∧ recordsCall fetchC1 stEmptyCache (some "object_1") false none none
        ≠ .ok (some "object_1", [], stEmptyCache, []) :=
  ⟨by decide, by decide, by decide⟩

/-- Claim C1 (amended): when the cache entry for the resolved container
exists and is non-empty, a refresh = false call returns the cached batch
unchanged with no transport call, whatever filters and record-limit are
passed on the call; and starting from a cache miss, provided the fetched
batch is non-empty, two consecutive refresh = false calls trigger exactly
one transport call in total and both return that batch. -/
theorem records_cache_idempotent (fetch : FetchArgs → List RawRecord)
    (st : AppState) (identifier : Option String) (c : Container)
    (batch : List RawRecord) (rl rl2 : Option Nat) (fl fl2 : Option String)
    (hid : strFalsy identifier = false)
    (hc : findContainer st.containers identifier = .ok c) :
    (dictGet st.data (pyOr c.obj c.view) = some batch → batch ≠ [] →
      recordsCall fetch st identifier false rl fl
        = .ok (pyOr c.obj c.view, batch, st, [])
      ∧ recordsCall fetch st identifier false rl2 fl2
        = .ok (pyOr c.obj c.view, batch, st, []))
    ∧ (cacheMiss st.data (pyOr c.obj c.view) = true →
       fetch (mkFetchArgs c fl (dropZero rl)) ≠ [] →
      recordsCall fetch st identifier false rl fl
        = .ok (pyOr c.obj c.view, fetch (mkFetchArgs c fl (dropZero rl)),
               { st with data :=
                            dictSet st.data (pyOr c.obj c.view)
                              (fetch (mkFetchArgs c fl (dropZero rl))) },
               [.transport (mkFetchArgs c fl (dropZero rl))])
      ∧ recordsCall fetch
          { st with data :=
                       dictSet st.data (pyOr c.obj c.view)
                         (fetch (mkFetchArgs c fl (dropZero rl))) }
          identifier false rl2 fl2
        = .ok (pyOr c.obj c.view, fetch (mkFetchArgs c fl (dropZero rl)),
               { st with data :=
                            dictSet st.data (pyOr c.obj c.view)
                              (fetch (mkFetchArgs c fl (dropZero rl))) },
               [])) := by
  constructor
  · intro hcache hne
    exact ⟨recordsCall_hit fetch st identifier c batch rl fl hid hc hcache hne,
           recordsCall_hit fetch st identifier c batch rl2 fl2 hid hc hcache hne⟩
  · intro hmiss hne
    refine ⟨recordsCall_miss fetch st identifier c rl fl hid hc hmiss, ?_⟩
    exact recordsCall_hit fetch _ identifier c _ rl2 fl2 hid hc
      (dictGet_dictSet_self st.data (pyOr c.obj c.view) _) hne

/-- Witness for C1 (amended): with a warm one-record cache for "object_1",
two refresh = false calls with different filters and record limits both
return the cached batch, with no transport call. -/
theorem records_cache_idempotent_witness :
    recordsCall fetchC1 stWarmCache (some "object_1") false (some 5)
        (some "flt")
      = .ok (some "object_1", [recC1], stWarmCache, [])
    ∧ recordsCall fetchC1 stWarmCache (some "object_1") false none none
      = .ok (some "object_1", [recC1], stWarmCache, []) :=
  (records_cache_idempotent fetchC1 stWarmCache (some "object_1") cntOrders
    [recC1] (some 5) none (some "flt") none (by decide) (by decide)).1
    (by decide) (by decide)

/-! ### Download-executor lemmas -/

theorem downloadFiles_success (web : String → Nat × String) :
    ∀ (l : List FileDict) (fs : FS), (∀ f ∈ l, (web f.url).1 < 400) →
      downloadFiles web l fs
        = (writeAll web l fs, l.map (fun f => Effect.transportGet f.url),
           .ok l.length) := by
  intro l
  induction l with
  | nil => intro fs h; rfl
  | cons f rest ih =>
      intro fs h
      have hf : (web f.url).1 < 400 := h f (List.mem_cons_self f rest)
      have hrest : ∀ g ∈ rest, (web g.url).1 < 400 :=
        fun g hg => h g (List.mem_cons_of_mem f hg)
      unfold downloadFiles
      rw [if_neg (by omega)]
      rw [ih (fsWrite fs f.filename (web f.url).2) hrest]
      simp [writeAll, Except.map]

theorem writeAll_keeps (web : String → Nat × String) :
    ∀ (l : List FileDict) (fs : FS) (k : String),
      dictGet fs k ≠ none → dictGet (writeAll web l fs) k ≠ none := by
  intro l
  induction l with
  | nil => intro fs k h; exact h
  | cons f rest ih =>
      intro fs k h
      have hstep : dictGet (fsWrite fs f.filename (web f.url).2) k ≠ none :=
        dictGet_dictSet_isSome fs f.filename k (web f.url).2 h
      simpa [writeAll] using ih (fsWrite fs f.filename (web f.url).2) k hstep

theorem writeAll_mem (web : String → Nat × String) :
    ∀ (l : List FileDict) (fs : FS) (f : FileDict), f ∈ l →
      dictGet (writeAll web l fs) f.filename ≠ none := by
  intro l
  induction l with
  | nil => intro fs f h; cases h
  | cons g rest ih =>
      intro fs f h
      rcases List.mem_cons.mp h with h1 | h2
      · subst h1
        have hstep : dictGet (fsWrite fs f.filename (web f.url).2) f.filename
            ≠ none := by
          simp [fsWrite, dictGet_dictSet_self]
        simpa [writeAll] using
          writeAll_keeps web rest (fsWrite fs f.filename (web f.url).2)
            f.filename hstep
      · simpa [writeAll] using ih (fsWrite fs g.filename (web g.url).2) f h2

theorem downloadFiles_abort (web : String → Nat × String) :
    ∀ (pre : List FileDict) (bad : FileDict) (post : List FileDict) (fs : FS),
      (∀ f ∈ pre, (web f.url).1 < 400) → 400 ≤ (web bad.url).1 →
      downloadFiles web (pre ++ bad :: post) fs
        = (writeAll web pre fs,
           pre.map (fun f => Effect.transportGet f.url)
             ++ [Effect.transportGet bad.url],
           .error (.downloadFailed bad.url (web bad.url).1)) := by
  intro pre
  induction pre with
  | nil =>
      intro bad post fs hpre hbad
      show downloadFiles web (bad :: post) fs = _
      unfold downloadFiles
      rw [if_pos hbad]
      simp [writeAll]
  | cons f rest ih =>
      intro bad post fs hpre hbad
      have hf : (web f.url).1 < 400 := hpre f (List.mem_cons_self f rest)
      have hrest : ∀ g ∈ rest, (web g.url).1 < 400 :=
        fun g hg => hpre g (List.mem_cons_of_mem f hg)
      show downloadFiles web (f :: (rest ++ bad :: post)) fs = _
      unfold downloadFiles
      rw [if_neg (by omega)]
      rw [ih bad post (fsWrite fs f.filename (web f.url).2) hrest hbad]
      simp [writeAll, Except.map]

/-! ### Claim C7 — download executor abort and count -/

/-- Claim C7: the executor processes descriptors strictly in order; when
every transfer succeeds it returns a count equal to the number of
descriptors, with each destination path present on the filesystem; on the
first non-success status it raises the download-failed error carrying that
URL and status, having fetched exactly the preceding descriptors plus the
failing one (no later descriptor is attempted) and leaving the preceding
writes on disk. -/
theorem download_executor_abort_count (web : String → Nat × String) (fs : FS)
    (l pre post : List FileDict) (bad : FileDict) :
    ((∀ f ∈ l, (web f.url).1 < 400) →
      downloadFiles web l fs
        = (writeAll web l fs, l.map (fun f => Effect.transportGet f.url),
           .ok l.length)
      ∧ ∀ f ∈ l, dictGet (writeAll web l fs) f.filename ≠ none)
    ∧ ((∀ f ∈ pre, (web f.url).1 < 400) → 400 ≤ (web bad.url).1 →
      downloadFiles web (pre ++ bad :: post) fs
        = (writeAll web pre fs,
           pre.map (fun f => Effect.transportGet f.url)
             ++ [Effect.transportGet bad.url],
           .error (.downloadFailed bad.url (web bad.url).1))) :=
  ⟨fun h => ⟨downloadFiles_success web l fs h,
             fun f hf => writeAll_mem web l fs f hf⟩,
   fun h1 h2 => downloadFiles_abort web pre bad post fs h1 h2⟩

/-- Witness for C7: with a concrete web oracle failing on "u2", a batch of
two good descriptors succeeds with count 2 and both files written; and in
the five-descriptor batch whose 2nd transfer fails, the executor stops after
fetching u1 and u2, leaves the first file on disk, and raises the
download-failed error for "u2" with status 500. -/
theorem download_executor_abort_count_witness :
    downloadFiles webFail2 [dlA, dlC] []
      = ([("_downloads/a.pdf", "body-u1"), ("_downloads/c.pdf", "body-u3")],
         [Effect.transportGet "u1", Effect.transportGet "u3"], .ok 2)
    ∧ downloadFiles webFail2 [dlA, dlB, dlC, dlD, dlE] []
      = ([("_downloads/a.pdf", "body-u1")],
         [Effect.transportGet "u1", Effect.transportGet "u2"],
         .error (.downloadFailed "u2" 500)) := by
  constructor
  · have h :=
      ((download_executor_abort_count webFail2 [] [dlA, dlC] [] [] dlA).1
        (by decide)).1
    exact h.trans (by decide)
  · have h :=
      (download_executor_abort_count webFail2 [] [] [dlA] [dlC, dlD, dlE]
        dlB).2 (by decide) (by decide)
    exact h.trans (by decide)

/-! ### Claim C6 — unknown-field behaviour of download -/

/-- Counterexample for C6: the container is addressed by its name "orders";
the field "field_7" exists on the resolved container (its definition has
obj equal to the container's object key "object_1" and a matching key), yet
download fails with the unknown-field error — `_find_field_def` is called
with the raw user identifier, not with the resolved container's object
key. -/
theorem download_unknown_field_cex :
    findContainer stDownload.containers (some "orders") = .ok cntOrders
    ∧ findFieldDef stDownload.fieldDefs "field_7" "object_1" = [fdFile]
    ∧ downloadCall fetchC1 webFail2 stDownload [] "orders" "field_7"
        "_downloads" []
      = ([], [], .error (.unknownField "field_7")) :=
  ⟨by decide, by decide, by decide⟩

/-- Claim C6 (amended): download fails with the unknown-field error exactly
when the requested field key or name does not resolve to any field
definition whose obj equals the raw user-supplied identifier string (rather
than the resolved container's object key); when such a definition exists, no
unknown-field error is ever raised. In particular, addressing a container by
name or view key raises the unknown-field error even when the field exists
on the resolved container. -/
theorem download_unknown_field_amended (fetch : FetchArgs → List RawRecord)
    (web : String → Nat × String) (st : AppState) (fs : FS)
    (identifier field outDir : String) (labelKeys : List String)
    (c : Container)
    (hc : findContainer st.containers (some identifier) = .ok c) :
    (findFieldDef st.fieldDefs field identifier = [] →
      downloadCall fetch web st fs identifier field outDir labelKeys
        = (fs, [], .error (.unknownField field)))
    ∧ (findFieldDef st.fieldDefs field identifier ≠ [] →
       ∀ fs2 effs g,
        downloadCall fetch web st fs identifier field outDir labelKeys
          ≠ (fs2, effs, .error (.unknownField g))) := by
  constructor
  · intro hempty
    simp [downloadCall, hc, hempty]
  · intro hne fs2 effs g heq
    cases hfd : findFieldDef st.fieldDefs field identifier with
    | nil => exact hne hfd
    | cons fd fds =>
        cases hac : assembleCall fetch st c.obj fd.key labelKeys outDir with
        | error e =>
            rcases assembleCall_error_shape fetch st c.obj fd.key labelKeys
                outDir e hac with h1 | ⟨i, h1⟩ | ⟨i, h1⟩ <;>
              (subst h1; simp [downloadCall, hc, hfd, hac] at heq)
        | ok v =>
            obtain ⟨downloads, st2, effs2⟩ := v
            simp only [downloadCall, hc, hfd, hac] at heq
            simp only [Prod.mk.injEq] at heq
            obtain ⟨h1, h2, h3⟩ := heq
            rcases hdf : (downloadFiles web downloads fs).2.2 with e0 | n
            · rw [hdf] at h3
              simp only [Except.map, Except.error.injEq] at h3
              rcases downloadFiles_error_shape web downloads fs e0 hdf
                with ⟨u, s2, hs⟩
              rw [hs] at h3
              exact absurd h3 (by simp)
            · rw [hdf] at h3
              exact absurd h3 (by simp [Except.map])

/-- Witness for C6 (amended): addressing the container by its object key,
an unknown field name raises the unknown-field error, while the existing
field "field_7" never produces an unknown-field error. -/
theorem download_unknown_field_amended_witness :
    downloadCall fetchC1 webFail2 stDownload [] "object_1" "nope"
        "_downloads" []
      = ([], [], .error (.unknownField "nope"))
    ∧ downloadCall fetchC1 webFail2 stDownload [] "object_1" "field_7"
        "_downloads" []
      ≠ ([], [], .error (.unknownField "field_7")) := by
  constructor
  · exact (download_unknown_field_amended fetchC1 webFail2 stDownload []
      "object_1" "nope" "_downloads" [] cntOrders (by decide)).1 (by decide)
  · exact (download_unknown_field_amended fetchC1 webFail2 stDownload []
      "object_1" "field_7" "_downloads" [] cntOrders (by decide)).2
      (by decide) [] [] "field_7"

/-! ### Claim C8 — the assembler mutates the record cache in place -/

/-- Claim C8: the assembler writes the label-prefixed, outDir-joined
destination path into the filename entry of the attachment payload it read
from the cached raw record — the emitted descriptor and the updated cache
entry share that payload — so after the assembly the container's cache entry
holds the rewritten name instead of the upstream one, and a second assembly
over the same cached data prepends the labels and outDir again onto the
already-rewritten name (the label values themselves being unchanged by the
mutation). -/
theorem assemble_mutates_cache (fetch : FetchArgs → List RawRecord)
    (st : AppState) (identifier : Option String) (c : Container)
    (rec : RawRecord) (f : FileDict) (fieldKey : String)
    (labelKeys : List String) (outDir : String)
    (hid : strFalsy identifier = false)
    (hc : findContainer st.containers identifier = .ok c)
    (hcache : dictGet st.data (pyOr c.obj c.view) = some [rec])
    (hfile : getFile rec (fieldKey ++ "_raw") = some f)
    (hnotin : (fieldKey ++ "_raw") ∉ labelKeys) :
    assembleCall fetch st identifier fieldKey labelKeys outDir
      = .ok ([rewriteFile rec labelKeys outDir f],
             { st with data :=
                          dictSet st.data (pyOr c.obj c.view)
                            [setFile rec (fieldKey ++ "_raw")
                              (rewriteFile rec labelKeys outDir f)] },
             [Effect.breakpoint])
    ∧ getFile
        (setFile rec (fieldKey ++ "_raw") (rewriteFile rec labelKeys outDir f))
        (fieldKey ++ "_raw")
      = some (rewriteFile rec labelKeys outDir f)
    ∧ (rewriteFile rec labelKeys outDir f).filename
      = osPathJoin outDir (labelFilename labelKeys rec f.filename)
    ∧ assembleCall fetch
        { st with data :=
                     dictSet st.data (pyOr c.obj c.view)
                       [setFile rec (fieldKey ++ "_raw")
                         (rewriteFile rec labelKeys outDir f)] }
        identifier fieldKey labelKeys outDir
      = .ok ([rewriteFile
                (setFile rec (fieldKey ++ "_raw")
                  (rewriteFile rec labelKeys outDir f))
                labelKeys outDir (rewriteFile rec labelKeys outDir f)],
             { st with data :=
                          dictSet
                            (dictSet st.data (pyOr c.obj c.view)
                              [setFile rec (fieldKey ++ "_raw")
                                (rewriteFile rec labelKeys outDir f)])
                            (pyOr c.obj c.view)
                            [setFile
                               (setFile rec (fieldKey ++ "_raw")
                                 (rewriteFile rec labelKeys outDir f))
                               (fieldKey ++ "_raw")
                               (rewriteFile
                                 (setFile rec (fieldKey ++ "_raw")
                                   (rewriteFile rec labelKeys outDir f))
                                 labelKeys outDir
                                 (rewriteFile rec labelKeys outDir f))] },
             [Effect.breakpoint])
    ∧ (rewriteFile
         (setFile rec (fieldKey ++ "_raw") (rewriteFile rec labelKeys outDir f))
         labelKeys outDir (rewriteFile rec labelKeys outDir f)).filename
      = osPathJoin outDir
          (labelFilename labelKeys rec
            (osPathJoin outDir (labelFilename labelKeys rec f.filename))) := by
  have hne : ([rec] : List RawRecord) ≠ [] := by simp
  have hrc := recordsCall_hit fetch st identifier c [rec] none none hid hc
    hcache hne
  have hget1 : getFile
      (setFile rec (fieldKey ++ "_raw") (rewriteFile rec labelKeys outDir f))
      (fieldKey ++ "_raw")
      = some (rewriteFile rec labelKeys outDir f) := by
    simp [getFile, rawGet, setFile, dictGet_dictSet_self]
  have hc2 : findContainer
      ({ st with data :=
                    dictSet st.data (pyOr c.obj c.view)
                      [setFile rec (fieldKey ++ "_raw")
                        (rewriteFile rec labelKeys outDir f)] } :
        AppState).containers identifier = .ok c := hc
  have hcache2 : dictGet
      (dictSet st.data (pyOr c.obj c.view)
        [setFile rec (fieldKey ++ "_raw")
          (rewriteFile rec labelKeys outDir f)])
      (pyOr c.obj c.view)
      = some [setFile rec (fieldKey ++ "_raw")
                (rewriteFile rec labelKeys outDir f)] :=
    dictGet_dictSet_self _ _ _
  have hrc2 := recordsCall_hit fetch _ identifier c _ none none hid hc2
    hcache2 (by simp)
  refine ⟨?_, hget1, rfl, ?_, ?_⟩
  · simp [assembleCall, hrc, assembleDownloads, processRecord, hfile]
  · simp [assembleCall, hrc2, assembleDownloads, processRecord, hget1]
  · show osPathJoin outDir
        (labelFilename labelKeys
          (setFile rec (fieldKey ++ "_raw")
            (rewriteFile rec labelKeys outDir f))
          (rewriteFile rec labelKeys outDir f).filename)
      = _
    unfold setFile
    rw [labelFilename_dictSet_notin rec (fieldKey ++ "_raw")
      (.vfile (rewriteFile rec labelKeys outDir f)) labelKeys hnotin]
    rfl

/-- Witness for C8: assembling the cached record of "object_2" rewrites the
cached filename to "_downloads/A_doc.pdf", and a second assembly over the
mutated cache yields "_downloads/A__downloads/A_doc.pdf". -/
theorem assemble_mutates_cache_witness :
    assembleCall fetchC1 stMut (some "object_2") "field_7" ["field_2"]
        "_downloads"
      = .ok ([{ fileDoc2 with filename := "_downloads/A_doc.pdf" }], stMut2,
             [Effect.breakpoint])
    ∧ (assembleCall fetchC1 stMut2 (some "object_2") "field_7" ["field_2"]
        "_downloads").toOption.map (fun r => r.1)
      = some [{ fileDoc2 with
                  filename := "_downloads/A__downloads/A_doc.pdf" }] := by
  have h := assemble_mutates_cache fetchC1 stMut (some "object_2") cntFiles
    recMut fileDoc2 "field_7" ["field_2"] "_downloads" (by decide) (by decide)
    (by decide) (by decide) (by decide)
  exact ⟨h.1.trans (by decide), by decide⟩

/-! ### Claim C9 — download passes container.obj to the records lookup -/

/-- Claim C9: `download` hands `container.obj` (not the user identifier or
the view key) to the assembly step; for a view-backed container whose obj is
unset the records lookup therefore runs with no identifier, so with anything
other than exactly one cached container it raises the missing-identifier
error, and with exactly one cached container it operates on that cached
batch — whichever container it belongs to — even though the caller named
the view explicitly. -/
theorem download_view_obj_only (fetch : FetchArgs → List RawRecord)
    (web : String → Nat × String) (st : AppState) (fs : FS)
    (identifier field outDir : String) (labelKeys : List String)
    (c : Container) (fd : FieldDef) (fds : List FieldDef)
    (hc : findContainer st.containers (some identifier) = .ok c)
    (hobj : c.obj = none)
    (hfd : findFieldDef st.fieldDefs field identifier = fd :: fds) :
    (st.data = [] →
      downloadCall fetch web st fs identifier field outDir labelKeys
        = (fs, [], .error .missingIdentifier))
    ∧ (2 ≤ st.data.length →
      downloadCall fetch web st fs identifier field outDir labelKeys
        = (fs, [], .error .missingIdentifier))
    ∧ (∀ k b c2, st.data = [(k, b)] →
        findContainer st.containers k = .ok c2 →
        pyOr c2.obj c2.view = k → b ≠ [] →
      downloadCall fetch web st fs identifier field outDir labelKeys
        = ((downloadFiles web
              (assembleDownloads b fd.key labelKeys outDir).1 fs).1,
           Effect.breakpoint
             :: (downloadFiles web
                  (assembleDownloads b fd.key labelKeys outDir).1 fs).2.1,
           (downloadFiles web
              (assembleDownloads b fd.key labelKeys outDir).1 fs).2.2.map
             (fun n => (n, { st with data :=
                                        dictSet st.data k
                                          (assembleDownloads b fd.key labelKeys
                                            outDir).2 })))) := by
  refine ⟨?_, ?_, ?_⟩
  · intro hdata
    have hri : resolveIdentifier st none = .error .missingIdentifier := by
      simp [resolveIdentifier, strFalsy, hdata]
    simp [downloadCall, hc, hfd, hobj, assembleCall, recordsCall, hri]
  · intro hlen
    have hri : resolveIdentifier st none = .error .missingIdentifier := by
      unfold resolveIdentifier
      rcases hd : st.data with _ | ⟨p, _ | ⟨q, rest2⟩⟩
      · rw [hd] at hlen; simp at hlen
      · rw [hd] at hlen; simp at hlen
      · simp [strFalsy]
    simp [downloadCall, hc, hfd, hobj, assembleCall, recordsCall, hri]
  · intro k b c2 hdata hc2 hkey hbne
    have hri : resolveIdentifier st none = .ok k := by
      simp [resolveIdentifier, strFalsy, hdata]
    have hdg : dictGet st.data k = some b := by
      rw [hdata]; simp [dictGet]
    have hmiss : cacheMiss st.data k = false := by
      unfold cacheMiss
      rw [hdg]
      simpa [List.isEmpty_iff] using hbne
    have hrc : recordsCall fetch st none false none none
        = .ok (k, b, st, []) := by
      simp [recordsCall, hri, hc2, recordsFetchStep, hkey, hmiss, hdg,
            generateRecords]
    simp [downloadCall, hc, hfd, hobj, assembleCall, hrc]

/-- Witness for C9: the caller downloads from the view "my view" (whose
container has no object key); the only cached batch belongs to "object_9",
so the download operates on that other container's records — it fetches and
writes its attachment — rather than anything belonging to the view. -/
theorem download_view_obj_only_witness :
    downloadCall fetchC1 webFail2 stView [] "my view" "field_3"
        "_downloads" []
      = ([("_downloads/doc.pdf", "body-https://api.knack.com/d2")],
         [Effect.breakpoint, Effect.transportGet "https://api.knack.com/d2"],
         .ok (1, { containers := [cntView, cntOther], fieldDefs := [fdView],
                   data := [(some "object_9",
                     [[("field_3_raw",
                        RawValue.vfile
                          { fileDoc2 with
                              filename := "_downloads/doc.pdf" })]])] })) := by
  have h := (download_view_obj_only fetchC1 webFail2 stView [] "my view"
    "field_3" "_downloads" [] cntView fdView [] (by decide) (by decide)
    (by decide)).2.2 (some "object_9") [recOther] cntOther (by decide)
    (by decide) (by decide) (by decide)
  exact h.trans (by decide)

/-! ### Claim C10 — the assembler always executes the breakpoint -/

/-- Claim C10: every successful run of the assembler executes the built-in
breakpoint debugger stop after the descriptor loop and immediately before
returning — its effect trace ends with the breakpoint effect — and hence
every successful download's effect trace contains the breakpoint stop. A
records-stage failure raises before the loop, matching the code, where the
exception propagates before `breakpoint()` is reached. -/
theorem assemble_breakpoint (fetch : FetchArgs → List RawRecord)
    (st : AppState) (identifier : Option String) (fieldKey : String)
    (labelKeys : List String) (outDir : String) :
    (∀ ds st2 effs,
      assembleCall fetch st identifier fieldKey labelKeys outDir
        = .ok (ds, st2, effs) →
      effs.getLast? = some Effect.breakpoint)
    ∧ (∀ (web : String → Nat × String) (fs : FS) (identifier2 field outDir2 :
          String) (labelKeys2 : List String) (n : Nat) (st2 : AppState),
        (downloadCall fetch web st fs identifier2 field outDir2
          labelKeys2).2.2 = .ok (n, st2) →
        Effect.breakpoint
          ∈ (downloadCall fetch web st fs identifier2 field outDir2
              labelKeys2).2.1) := by
  constructor
  · intro ds st2 effs h
    unfold assembleCall at h
    cases hrc : recordsCall fetch st identifier false none none with
    | error e => simp [hrc] at h
    | ok v =>
        obtain ⟨key, batch, st1, effs1⟩ := v
        simp only [hrc] at h
        simp only [Except.ok.injEq, Prod.mk.injEq] at h
        obtain ⟨h1, h2, h3⟩ := h
        rw [← h3]
        exact List.getLast?_concat _
  · intro web fs id2 field od2 lk2 n st2 h
    cases hfc : findContainer st.containers (some id2) with
    | error e => simp [downloadCall, hfc] at h
    | ok c =>
        cases hfd : findFieldDef st.fieldDefs field id2 with
        | nil => simp [downloadCall, hfc, hfd] at h
        | cons fd fds =>
            cases hac : assembleCall fetch st c.obj fd.key lk2 od2 with
            | error e => simp [downloadCall, hfc, hfd, hac] at h
            | ok v =>
                obtain ⟨downloads, st3, effs⟩ := v
                have hbp : Effect.breakpoint ∈ effs := by
                  unfold assembleCall at hac
                  cases hrc : recordsCall fetch st c.obj false none none with
                  | error e => simp [hrc] at hac
                  | ok v2 =>
                      obtain ⟨key, batch, st1, effs1⟩ := v2
                      simp only [hrc] at hac
                      simp only [Except.ok.injEq, Prod.mk.injEq] at hac
                      obtain ⟨g1, g2, g3⟩ := hac
                      rw [← g3]
                      exact List.mem_append_right _ (List.mem_singleton.mpr rfl)
                have hmem : Effect.breakpoint
                    ∈ effs ++ (downloadFiles web downloads fs).2.1 :=
                  List.mem_append_left _ hbp
                simpa [downloadCall, hfc, hfd, hac] using hmem

/-- Witness for C10: a successful concrete assembly's trace ends with the
breakpoint effect, and a successful concrete download's trace contains it. -/
theorem assemble_breakpoint_witness :
    ([Effect.breakpoint] : List Effect).getLast? = some Effect.breakpoint
    ∧ Effect.breakpoint
        ∈ (downloadCall fetchC1 webFail2 stDownload [] "object_1" "field_7"
            "_downloads" []).2.1 := by
  constructor
  · exact (assemble_breakpoint fetchC1 stMut (some "object_2") "field_7"
      ["field_2"] "_downloads").1
      [{ fileDoc2 with filename := "_downloads/A_doc.pdf" }] stMut2
      [Effect.breakpoint] (by decide)
  · exact (assemble_breakpoint fetchC1 stDownload (some "object_1") "field_7"
      [] "_downloads").2 webFail2 [] "object_1" "field_7" "_downloads" [] 1
      ⟨[cntOrders], [fdFile],
       [(some "object_1",
         [[("field_7_raw",
            RawValue.vfile
              { fileDoc2 with filename := "_downloads/doc.pdf" })]])]⟩
      (by decide)

end Knackpy
